import Mathlib

/-!
Verification of the clan-bot stats/ledger service (`bot.py`) against its
natural-language specification.

Modelling conventions:
* Pure Python functions are translated directly into Lean functions.
* SQLite tables are modelled as Lean lists of row structures, in insertion
  order; `UNIQUE` constraints and `LOWER()` matching are translated into the
  corresponding list predicates (SQLite `LOWER` and Python `str.lower` agree
  on the ASCII names this bot handles, modelled by `asciiLower`).
* Each upstream HTTP fetch is modelled as an oracle input of type `Option _`:
  a 200 response whose JSON body carries no `error` key is `some`, and every
  failure path (non-200 status, timeout, malformed body, `error` key) is
  `none`.  A parsed profile body always carries at least one key, so Python's
  dict-falsiness test on it coincides with the `none` test; the hiscores
  parser can genuinely produce an empty dict, which is modelled explicitly.
* CPython float division followed by `.Nf` formatting is modelled as exact
  rational rounding with ties to even.
-/

namespace ClanBot

/-- Round `a / b` to the nearest integer, ties to even (for `b > 0`).
Models CPython `.Nf` fixed-point formatting applied to the exact quotient. -/
def rheNat (a b : Nat) : Nat :=
  let q := a / b
  let r := a % b
  if b < 2 * r then q + 1
  else if 2 * r < b then q
  else if q % 2 = 0 then q else q + 1

/-- Left-pad a decimal digit string with zeros to width `d`. -/
def padZeros (d : Nat) (s : String) : String :=
  String.mk (List.replicate (d - s.length) '0') ++ s

/-- Render `num / den` with `d` digits after the decimal point (round half
to even): the exact-rational model of CPython `f-string` `.df` formatting. -/
def fmtDiv (num den d : Nat) : String :=
  let scaled := rheNat (num * 10 ^ d) den
  toString (scaled / 10 ^ d) ++ "." ++ padZeros d (toString (scaled % 10 ^ d))

/-- `format_number` from `bot.py`: K/M/B suffix formatting of an integer. -/
def format_number (num : Int) : String :=
  if num ≥ 1000000000 then fmtDiv num.toNat 1000000000 2 ++ "B"
  else if num ≥ 1000000 then fmtDiv num.toNat 1000000 2 ++ "M"
  else if num ≥ 1000 then fmtDiv num.toNat 1000 1 ++ "K"
  else toString num

/-- C1: `format_number` renders `n ≥ 1e9` as `n/1e9` with 2 decimals plus
`"B"`, `n ≥ 1e6` as `n/1e6` with 2 decimals plus `"M"`, `n ≥ 1e3` as `n/1e3`
with 1 decimal plus `"K"`, otherwise the plain integer string; and the
documented boundary examples 999, 1000, 999999, 1000000, 1000000000 render
as "999", "1.0K", "1000.0K", "1.00M", "1.00B". -/
theorem C1_format_number (n : Int) :
    format_number 999 = "999" ∧
    format_number 1000 = "1.0K" ∧
    format_number 999999 = "1000.0K" ∧
    format_number 1000000 = "1.00M" ∧
    format_number 1000000000 = "1.00B" ∧
    ((1000000000 : Int) ≤ n → format_number n = fmtDiv n.toNat 1000000000 2 ++ "B") ∧
    ((1000000 : Int) ≤ n → n < 1000000000 → format_number n = fmtDiv n.toNat 1000000 2 ++ "M") ∧
    ((1000 : Int) ≤ n → n < 1000000 → format_number n = fmtDiv n.toNat 1000 1 ++ "K") ∧
    (n < 1000 → format_number n = toString n) := by
  refine ⟨by decide, by decide, by decide, by decide, by decide, ?_, ?_, ?_, ?_⟩ <;>
    · intros
      simp only [format_number, ge_iff_le]
      split_ifs <;> first | rfl | omega

/-- Concrete instantiations of the tier equations of `C1_format_number`. -/
theorem C1_format_number_witness :
    format_number 1234567890 = fmtDiv (Int.toNat 1234567890) 1000000000 2 ++ "B" ∧
    format_number 12 = toString (12 : Int) :=
  ⟨(C1_format_number 1234567890).2.2.2.2.2.1 (by decide),
   (C1_format_number 12).2.2.2.2.2.2.2.2 (by decide)⟩

/-- The RuneMetrics profile JSON body, restricted to the keys `bot.py`
reads.  Each key may be absent (`Option`); `activities` is the list of the
activities' `text` fields, themselves possibly absent. -/
structure RMProfile where
  name : Option String
  totalxp : Option Int
  totalskill : Option Int
  combatlevel : Option Int
  questscomplete : Option Int
  questsstarted : Option Int
  questsnotstarted : Option Int
  activities : List (Option String)
deriving DecidableEq, Repr

/-- One parsed hiscores row: `rank,level,xp`. -/
structure SkillEntry where
  rank : Int
  level : Int
  xp : Int
deriving DecidableEq, Repr

/-- Skill names in order from hiscores (`SKILLS` in `bot.py`). -/
def SKILLS : List String :=
  ["Overall", "Attack", "Defence", "Strength", "Constitution", "Ranged",
   "Prayer", "Magic", "Cooking", "Woodcutting", "Fletching", "Fishing",
   "Firemaking", "Crafting", "Smithing", "Mining", "Herblore", "Agility",
   "Thieving", "Slayer", "Farming", "Runecrafting", "Hunter", "Construction",
   "Summoning", "Dungeoneering", "Divination", "Invention", "Archaeology", "Necromancy"]

/-- Split a character list at every occurrence of `sep`, keeping empty
fields, as Python `str.split(sep)` does for a one-character separator. -/
def splitCharAux (sep : Char) : List Char → List Char → List (List Char)
  | [], acc => [acc.reverse]
  | ch :: rest, acc =>
    if ch = sep then acc.reverse :: splitCharAux sep rest []
    else splitCharAux sep rest (ch :: acc)

/-- Python `s.split(sep)` for a one-character separator. -/
def splitChar (sep : Char) (s : String) : List String :=
  (splitCharAux sep s.data []).map String.mk

/-- The numeric value of a decimal digit, `none` for any other character. -/
def charDigit (ch : Char) : Option Nat :=
  if '0' ≤ ch ∧ ch ≤ '9' then some (ch.toNat - '0'.toNat) else none

/-- Accumulate the value of a list of decimal digits. -/
def digitsVal : List Char → Nat → Option Nat
  | [], acc => some acc
  | ch :: rest, acc =>
    match charDigit ch with
    | some d => digitsVal rest (acc * 10 + d)
    | none => none

/-- Python `int(s)` on the decimal literals the hiscores endpoint emits
(an optional minus sign followed by digits); anything else raises
`ValueError`, modelled as `none`. -/
def pyInt (s : String) : Option Int :=
  match s.data with
  | '-' :: d :: rest => (digitsVal (d :: rest) 0).map (fun n => -(n : Int))
  | d :: rest => (digitsVal (d :: rest) 0).map (fun n => (n : Int))
  | [] => none

/-- Python whitespace characters recognised by `str.strip()`. -/
def pyIsSpace (ch : Char) : Bool :=
  ch = ' ' || ch = '\t' || ch = '\n' || ch = '\x0d' || ch = '\x0b' || ch = '\x0c'

/-- Python `s.strip()`. -/
def pyStrip (s : String) : String :=
  String.mk (((s.data.dropWhile pyIsSpace).reverse.dropWhile pyIsSpace).reverse)

/-- Parse one hiscores line for `skill`: split on commas; fewer than 3
fields yields no entry (`ok none`); otherwise the first three fields are
parsed with Python `int()`, and a non-integer field raises `ValueError`,
aborting the whole fetch (`error ()`). -/
def parseLine (skill line : String) : Except Unit (Option (String × SkillEntry)) :=
  match splitChar ',' line with
  | a :: b :: c :: _ =>
    match pyInt a, pyInt b, pyInt c with
    | some r, some l, some x => .ok (some (skill, ⟨r, l, x⟩))
    | _, _, _ => .error ()
  | _ => .ok none

/-- The loop body of `fetch_hiscores`: fold the parsed entries over the
lines paired positionally with `SKILLS` (`lines[:len(SKILLS)]` is exactly
the zip truncation). -/
def parseHiscoresGo (acc : List (String × SkillEntry)) :
    List (String × String) → Except Unit (List (String × SkillEntry))
  | [] => .ok acc
  | p :: rest =>
    match parseLine p.1 p.2 with
    | .ok none => parseHiscoresGo acc rest
    | .ok (some e) => parseHiscoresGo (acc ++ [e]) rest
    | .error u => .error u

/-- The response-body parser inside `fetch_hiscores`, over the list of
lines of the body: builds the `skills` dict (modelled as an association
list in insertion order, keys drawn from the pairwise-distinct `SKILLS`). -/
def parse_hiscores (lines : List String) : Except Unit (List (String × SkillEntry)) :=
  parseHiscoresGo [] (SKILLS.zip lines)

/-- Splitting the body into lines: `text.strip().split("\n")`. -/
def hiscoresLines (text : String) : List String :=
  splitChar '\n' (pyStrip text)

/-- The per-line extraction `parseLine` performs when it does not abort. -/
def lineEntry (skill line : String) : Option (String × SkillEntry) :=
  match parseLine skill line with
  | .ok o => o
  | .error _ => none

theorem parseHiscoresGo_ok (ps : List (String × String)) :
    ∀ (acc es : List (String × SkillEntry)),
      parseHiscoresGo acc ps = .ok es →
      es = acc ++ ps.filterMap (fun p => lineEntry p.1 p.2) := by
  induction ps with
  | nil => intro acc es h; simpa [parseHiscoresGo] using h.symm
  | cons p rest ih =>
    intro acc es h
    rw [parseHiscoresGo] at h
    rcases hp : parseLine p.1 p.2 with u | o <;> rw [hp] at h
    · exact absurd h (by simp)
    · rcases o with _ | e
      · simpa [List.filterMap_cons, lineEntry, hp] using ih acc es h
      · simpa [List.filterMap_cons, lineEntry, hp] using ih (acc ++ [e]) es h

theorem zip_take_self {α β : Type} :
    ∀ (l : List α) (l' : List β), l.zip (l'.take l.length) = l.zip l'
  | [], _ => rfl
  | _ :: _, [] => rfl
  | a :: l, b :: l' => by
    simp only [List.length_cons, List.take_succ_cons, List.zip_cons_cons]
    rw [zip_take_self l l']

/-- C4: the hiscores parser pairs lines positionally with the fixed
30-entry `SKILLS` list (so lines beyond the 30th are ignored: the parse of
`lines` equals the parse of `lines.take 30`), and on success the produced
entries are exactly, in skill order, one `(skill, rank/level/xp)` entry per
line whose comma-split has at least 3 integer fields, lines with fewer than
3 fields contributing nothing. -/
theorem C4_parse_hiscores (lines : List String) :
    parse_hiscores lines = parse_hiscores (lines.take SKILLS.length) ∧
    (∀ es, parse_hiscores lines = .ok es →
      es = (SKILLS.zip lines).filterMap (fun p => lineEntry p.1 p.2)) ∧
    (∀ skill line, (splitChar ',' line).length < 3 → lineEntry skill line = none) := by
  refine ⟨by rw [parse_hiscores, parse_hiscores, zip_take_self],
    fun es h => by simpa using parseHiscoresGo_ok (SKILLS.zip lines) [] es h,
    fun skill line hlt => ?_⟩
  rw [lineEntry, parseLine]
  rcases hs : splitChar ',' line with _ | ⟨a, tl⟩
  · simp_all
  · rcases tl with _ | ⟨b, tl2⟩
    · simp_all
    · rcases tl2 with _ | ⟨c, t⟩
      · simp_all
      · exact absurd hlt (by rw [hs]; simp only [List.length_cons]; omega)

/-- Concrete instantiation of `C4_parse_hiscores`: a body whose second line
is short (skipping `Attack`) and whose lines stop after three entries. -/
theorem C4_parse_hiscores_witness :
    [("Overall", (⟨123, 99, 200000000⟩ : SkillEntry)), ("Defence", ⟨55, 80, 1986068⟩)] =
      (SKILLS.zip ["123,99,200000000", "7", "55,80,1986068"]).filterMap
        (fun p => lineEntry p.1 p.2) ∧
    lineEntry "Attack" "7" = none := by
  have h := C4_parse_hiscores ["123,99,200000000", "7", "55,80,1986068"]
  exact ⟨h.2.1 _ (by rfl), h.2.2 "Attack" "7" (by decide)⟩

/-- Python `s[:n]` on code points. -/
def pyTake (n : Nat) (s : String) : String :=
  String.mk (s.data.take n)

/-- Python `s.rstrip(" | ")`: drop trailing characters drawn from the set
of characters of the argument (space and bar). -/
def pyRstripBarSpace (s : String) : String :=
  String.mk ((s.data.reverse.dropWhile (fun ch => ch = ' ' || ch = '|')).reverse)

/-- The reply of the `/stats` command: either the user-visible "not found"
message or an embed, modelled by its title and ordered `(name, value)`
fields. -/
inductive StatsOutcome
  | notFound (rsn : String)
  | report (title : String) (fields : List (String × String))
deriving DecidableEq, Repr

/-- The value string of the `Quests` embed field. -/
def quests_value (p : RMProfile) : String :=
  toString (p.questscomplete.getD 0) ++ "/" ++
    toString (p.questsstarted.getD 0 + p.questscomplete.getD 0 + p.questsnotstarted.getD 0)

/-- The embed fields built from the RuneMetrics profile in `stats_lookup`.
The `Quests` field is guarded by Python truthiness of
`runemetrics.get("questscomplete")` (absent or zero suppresses it); the
`Recent Activity` field is added only when `activities` is nonempty. -/
def stats_fields (p : RMProfile) : List (String × String) :=
  [("Total XP", format_number (p.totalxp.getD 0)),
   ("Total Level", toString (p.totalskill.getD 0)),
   ("Combat Level", toString (p.combatlevel.getD 0))] ++
  (if p.questscomplete.getD 0 ≠ 0 then [("Quests", quests_value p)] else []) ++
  (match p.activities with
   | [] => []
   | a :: _ => [("Recent Activity", pyTake 100 (a.getD "Unknown"))])

/-- `combat_stats` from `stats_lookup`. -/
def combat_stats : List String :=
  ["Attack", "Strength", "Defence", "Constitution", "Ranged", "Prayer",
   "Magic", "Summoning", "Necromancy"]

/-- The `combat_text` accumulation loop of `stats_lookup`. -/
def combat_text_go (hs : List (String × SkillEntry)) : List String → String
  | [] => ""
  | s :: rest =>
    (match hs.lookup s with
     | some e => "**" ++ s ++ ":** " ++ toString e.level ++ " | "
     | none => "") ++ combat_text_go hs rest

/-- `combat_text` as built by `stats_lookup` before the `rstrip`. -/
def combat_text (hs : List (String × SkillEntry)) : String :=
  combat_text_go hs combat_stats

/-- Python falsiness of the `hiscores` fetch result (`None` or empty dict). -/
def hiscoresFalsy : Option (List (String × SkillEntry)) → Bool
  | none => true
  | some l => l.isEmpty

/-- The `/stats` command after RSN resolution and the two fetches
(`stats_lookup` in `bot.py`). -/
def stats_report (runemetrics : Option RMProfile)
    (hiscores : Option (List (String × SkillEntry))) (rsn : String) : StatsOutcome :=
  if runemetrics.isNone && hiscoresFalsy hiscores then
    .notFound rsn
  else
    let title := "📊 Stats for " ++ (match runemetrics with
      | some p => p.name.getD rsn
      | none => rsn)
    let fields1 := match runemetrics with
      | some p => stats_fields p
      | none => []
    let fields2 := match hiscores with
      | some hs =>
        if hs.isEmpty then []
        else if combat_text hs = "" then []
        else [("Combat Stats", pyRstripBarSpace (combat_text hs))]
      | none => []
    .report title (fields1 ++ fields2)

theorem string_append_eq_empty {a b : String} : a ++ b = "" ↔ a = "" ∧ b = "" := by
  constructor
  · intro h
    have hd : a.data ++ b.data = List.nil := by
      have hc := congrArg String.data h
      simpa [String.data_append] using hc
    rcases List.append_eq_nil.mp hd with ⟨ha, hb⟩
    exact ⟨String.ext ha, String.ext hb⟩
  · rintro ⟨rfl, rfl⟩
    rfl

theorem combat_text_go_eq_empty (hs : List (String × SkillEntry)) :
    ∀ l : List String, combat_text_go hs l = "" ↔ ∀ s ∈ l, hs.lookup s = none := by
  intro l
  induction l with
  | nil => simp [combat_text_go]
  | cons s rest ih =>
    rw [combat_text_go]
    rcases hl : hs.lookup s with _ | e
    · constructor
      · intro h
        intro s' hm
        rcases List.mem_cons.mp hm with rfl | hm'
        · exact hl
        · exact ih.mp (string_append_eq_empty.mp h).2 s' hm'
      · intro h
        have hrest : combat_text_go hs rest = "" :=
          ih.mpr (fun s' hm => h s' (List.mem_cons_of_mem _ hm))
        rw [hrest]
        rfl
    · constructor
      · intro h
        have h1 := (string_append_eq_empty.mp h).1
        have hB := (string_append_eq_empty.mp h1).2
        exact absurd hB (by decide)
      · intro h
        exact absurd (h s (List.mem_cons_self s rest)) (by simp [hl])

/-- C2: with exactly one of the two fetches populated, `/stats` still
renders a report: a profile alone yields a report titled by the profile
name; a nonempty skill table alone yields a report whose every field is
the combat-stats field (so no quest or activity fields), and that field is
present as soon as some combat skill is in the table; the user-visible
"not found" reply happens exactly when the profile fetch is absent and the
skill-table fetch is absent or empty. -/
theorem C2_stats_one_fetch (p : RMProfile) (hs : List (String × SkillEntry)) (rsn : String)
    (hne : hs ≠ []) :
    (∃ fields, stats_report (some p) none rsn =
      .report ("📊 Stats for " ++ p.name.getD rsn) fields) ∧
    (∃ fields, stats_report none (some hs) rsn = .report ("📊 Stats for " ++ rsn) fields ∧
      (∀ f ∈ fields, f.1 = "Combat Stats") ∧
      ((∃ s ∈ combat_stats, (hs.lookup s).isSome) → ∃ v, ("Combat Stats", v) ∈ fields)) ∧
    (∀ rm hso, stats_report rm hso rsn = .notFound rsn ↔
      rm = none ∧ (hso = none ∨ hso = some [])) := by
  refine ⟨⟨stats_fields p ++ [], by simp only [stats_report]; rfl⟩, ?_, ?_⟩
  · rcases hcb : decide (combat_text hs = "") with _ | _
    · refine ⟨[("Combat Stats", pyRstripBarSpace (combat_text hs))], ?_, ?_, ?_⟩
      · have hcb' : ¬ combat_text hs = "" := of_decide_eq_false hcb
        simp [stats_report, hiscoresFalsy, List.isEmpty_iff, hne, hcb']
      · simp
      · intro _
        exact ⟨pyRstripBarSpace (combat_text hs), by simp⟩
    · have hcb' : combat_text hs = "" := of_decide_eq_true hcb
      refine ⟨[], ?_, by simp, ?_⟩
      · simp [stats_report, hiscoresFalsy, List.isEmpty_iff, hne, hcb']
      · rintro ⟨s, hsmem, hsome⟩
        have := (combat_text_go_eq_empty hs combat_stats).mp hcb' s hsmem
        simp [this] at hsome
  · intro rm hso
    cases rm with
    | some q => simp [stats_report]
    | none =>
      cases hso with
      | none => simp [stats_report, hiscoresFalsy]
      | some l =>
        cases l with
        | nil => simp [stats_report, hiscoresFalsy]
        | cons a tl => simp [stats_report, hiscoresFalsy]

/-- Concrete instantiation of `C2_stats_one_fetch`: a single-skill table with
no profile still renders a report. -/
theorem C2_stats_one_fetch_witness :
    ∃ fields,
      stats_report none (some [("Attack", ⟨1000, 99, 200000000⟩)]) "Bob" =
        .report ("📊 Stats for " ++ "Bob") fields ∧
      (∀ f ∈ fields, f.1 = "Combat Stats") ∧
      ((∃ s ∈ combat_stats, ((([("Attack", (⟨1000, 99, 200000000⟩ : SkillEntry))]).lookup s).isSome)) →
        ∃ v, ("Combat Stats", v) ∈ fields) :=
  (C2_stats_one_fetch ⟨none, none, none, none, none, none, none, []⟩
    [("Attack", ⟨1000, 99, 200000000⟩)] "Bob" (by decide)).2.1

/-- The profile used for the C3 counterexample: quest data present but the
completed count is zero. -/
def questZeroProfile : RMProfile :=
  { name := some "Bob", totalxp := some 50, totalskill := some 40,
    combatlevel := some 3, questscomplete := some 0, questsstarted := some 5,
    questsnotstarted := some 3, activities := [] }

/-- C3 counterexample: with `questscomplete = 0` (and quest counts 5/3
present), the single-player report carries no `Quests` field at all, so
the ratio `0/8` is not produced. -/
theorem C3_counterexample :
    questZeroProfile.questscomplete = some 0 ∧
    questZeroProfile.questsstarted = some 5 ∧
    questZeroProfile.questsnotstarted = some 3 ∧
    (stats_fields questZeroProfile).map Prod.fst =
      ["Total XP", "Total Level", "Combat Level"] :=
  ⟨rfl, rfl, rfl, by decide⟩

/-- C3 as amended: the `Quests` field value is
`complete/(started+complete+notstarted)` with each count defaulting to 0
when absent, but the field is rendered only when the completed count is
present and nonzero; when it is zero or absent the field is omitted. -/
theorem C3_quests_field (p : RMProfile) :
    (p.questscomplete.getD 0 ≠ 0 →
      ("Quests", toString (p.questscomplete.getD 0) ++ "/" ++
        toString (p.questsstarted.getD 0 + p.questscomplete.getD 0 +
          p.questsnotstarted.getD 0)) ∈ stats_fields p) ∧
    (p.questscomplete.getD 0 = 0 → "Quests" ∉ (stats_fields p).map Prod.fst) := by
  constructor
  · intro hq
    simp only [stats_fields, quests_value, if_pos hq, List.mem_append, List.mem_cons]
    tauto
  · intro h0 hm
    cases hact : p.activities with
    | nil =>
      rw [show (stats_fields p).map Prod.fst = ["Total XP", "Total Level", "Combat Level"] by
        simp [stats_fields, hact, h0]] at hm
      exact absurd hm (by decide)
    | cons a tl =>
      rw [show (stats_fields p).map Prod.fst =
          ["Total XP", "Total Level", "Combat Level", "Recent Activity"] by
        simp [stats_fields, hact, h0]] at hm
      exact absurd hm (by decide)

/-- Concrete instantiation of `C3_quests_field`: a profile with 10
completed, 5 started, 3 not started renders `10/18`; `questZeroProfile`
renders no quests field. -/
theorem C3_quests_field_witness :
    ("Quests", toString ((some (10 : Int)).getD 0) ++ "/" ++
        toString ((some (5 : Int)).getD 0 + (some (10 : Int)).getD 0 +
          (some (3 : Int)).getD 0)) ∈
      stats_fields ⟨some "Bob", none, none, none, some 10, some 5, some 3, []⟩ ∧
    "Quests" ∉ (stats_fields questZeroProfile).map Prod.fst :=
  ⟨(C3_quests_field ⟨some "Bob", none, none, none, some 10, some 5, some 3, []⟩).1 (by decide),
   (C3_quests_field questZeroProfile).2 (by decide)⟩

/-- The four compared statistics `(label, key)` of `compare_stats`. -/
def comparisons : List (String × String) :=
  [("Total XP", "totalxp"), ("Total Level", "totalskill"),
   ("Combat Level", "combatlevel"), ("Quests Complete", "questscomplete")]

/-- `data.get(key, 0)` for the keys `compare_stats` reads. -/
def rmGet (p : RMProfile) (key : String) : Int :=
  if key = "totalxp" then p.totalxp.getD 0
  else if key = "totalskill" then p.totalskill.getD 0
  else if key = "combatlevel" then p.combatlevel.getD 0
  else if key = "questscomplete" then p.questscomplete.getD 0
  else 0

/-- One embed field of the comparison report, split into the pieces the
f-string interpolates: the two displayed values and the two (possibly
empty) winner markers. -/
structure ComparedField where
  label : String
  left : String
  leftMark : String
  right : String
  rightMark : String
deriving DecidableEq, Repr

/-- The f-string
`f"{display1} {marker1} vs {display2} {marker2}"` of `compare_stats`. -/
def ComparedField.render (f : ComparedField) : String :=
  f.left ++ " " ++ f.leftMark ++ " vs " ++ f.right ++ " " ++ f.rightMark

/-- One iteration of the comparison loop of `compare_stats`. -/
def compare_field (d1 d2 : RMProfile) (label key : String) : ComparedField :=
  let val1 := rmGet d1 key
  let val2 := rmGet d2 key
  { label := label
    left := if key = "totalxp" then format_number val1 else toString val1
    leftMark := if val1 > val2 then "🏆" else ""
    right := if key = "totalxp" then format_number val2 else toString val2
    rightMark := if val2 > val1 then "🏆" else "" }

/-- The full comparison report of `compare_stats`. -/
def compare_report (d1 d2 : RMProfile) : List ComparedField :=
  comparisons.map (fun lk => compare_field d1 d2 lk.1 lk.2)

theorem render_tie (f : ComparedField) (hL : f.leftMark = "") (hR : f.rightMark = "") :
    f.render = f.left ++ "  vs " ++ f.right ++ " " := by
  rw [ComparedField.render, hL, hR]
  rw [String.append_empty, String.append_empty]
  rw [String.append_assoc f.left " " " vs "]
  rw [(by decide : (" " ++ " vs " : String) = "  vs ")]

/-- C5: in every compared statistic, a side's winner marker is the trophy
exactly when that side's value is strictly greater, and on a tie both
markers are empty and the field still renders (to
`left ++ "  vs " ++ right ++ " "`). -/
theorem C5_compare_markers (d1 d2 : RMProfile) :
    ∀ lk ∈ comparisons,
      ((compare_field d1 d2 lk.1 lk.2).leftMark = "🏆" ↔ rmGet d1 lk.2 > rmGet d2 lk.2) ∧
      ((compare_field d1 d2 lk.1 lk.2).rightMark = "🏆" ↔ rmGet d2 lk.2 > rmGet d1 lk.2) ∧
      (¬ rmGet d1 lk.2 > rmGet d2 lk.2 → (compare_field d1 d2 lk.1 lk.2).leftMark = "") ∧
      (¬ rmGet d2 lk.2 > rmGet d1 lk.2 → (compare_field d1 d2 lk.1 lk.2).rightMark = "") ∧
      (rmGet d1 lk.2 = rmGet d2 lk.2 →
        (compare_field d1 d2 lk.1 lk.2).render =
          (compare_field d1 d2 lk.1 lk.2).left ++ "  vs " ++
            (compare_field d1 d2 lk.1 lk.2).right ++ " ") := by
  intro lk _
  refine ⟨?_, ?_, ?_, ?_, ?_⟩
  · simp only [compare_field]
    split_ifs with h
    · exact iff_of_true rfl h
    · exact iff_of_false (by decide) h
  · simp only [compare_field]
    split_ifs with h
    · exact iff_of_true rfl h
    · exact iff_of_false (by decide) h
  · intro h
    simp [compare_field, h]
  · intro h
    simp [compare_field, h]
  · intro heq
    have h1 : ¬ rmGet d1 lk.2 > rmGet d2 lk.2 := by omega
    have h2 : ¬ rmGet d2 lk.2 > rmGet d1 lk.2 := by omega
    exact render_tie _ (by simp [compare_field, h1]) (by simp [compare_field, h2])

/-- Concrete instantiation of `C5_compare_markers` at the spec's example:
total experience 100 vs 200 puts the trophy only on the right side. -/
theorem C5_compare_markers_witness :
    ((compare_field ⟨none, some 100, none, none, none, none, none, []⟩
        ⟨none, some 200, none, none, none, none, none, []⟩ "Total XP" "totalxp").rightMark
      = "🏆") ∧
    ((compare_field ⟨none, some 100, none, none, none, none, none, []⟩
        ⟨none, some 200, none, none, none, none, none, []⟩ "Total XP" "totalxp").leftMark
      = "") := by
  have h := C5_compare_markers ⟨none, some 100, none, none, none, none, none, []⟩
    ⟨none, some 200, none, none, none, none, none, []⟩ ("Total XP", "totalxp") (by decide)
  exact ⟨h.2.1.mpr (by decide), h.2.2.1 (by decide)⟩

/-- One entry of `player_data` in `leaderboard`. -/
structure PlayerRow where
  name : String
  xp : Int
  level : Int
deriving DecidableEq, Repr

/-- The comparison `player_data.sort(key=lambda x: x["xp"], reverse=True)`
performs: descending by total experience.  Python `list.sort` is a stable
sort, modelled by the stable `List.mergeSort`. -/
def lbLe (a b : PlayerRow) : Bool :=
  decide (b.xp ≤ a.xp)

/-- `player_data` after the sort in `leaderboard`. -/
def leaderboard_sorted (l : List PlayerRow) : List PlayerRow :=
  l.mergeSort lbLe

/-- `player_data[:10]`: the rows actually rendered. -/
def leaderboard_rows (l : List PlayerRow) : List PlayerRow :=
  (leaderboard_sorted l).take 10

/-- `medals` from `leaderboard`. -/
def medals : List String := ["🥇", "🥈", "🥉"]

/-- `medals[i] if i < 3 else f"**{i+1}.**"`. -/
def rank_marker (i : Nat) : String :=
  if i < 3 then medals.getD i "" else "**" ++ toString (i + 1) ++ ".**"

/-- One line of the leaderboard text. -/
def leaderboard_line (i : Nat) (p : PlayerRow) : String :=
  rank_marker i ++ " **" ++ p.name ++ "** - " ++ format_number p.xp ++
    " XP (Level " ++ toString p.level ++ ")\n"

theorem lbLe_trans (a b c : PlayerRow) : lbLe a b → lbLe b c → lbLe a c := by
  simp only [lbLe, decide_eq_true_eq]
  omega

theorem lbLe_total (a b : PlayerRow) : lbLe a b || lbLe b a := by
  simp only [lbLe, Bool.or_eq_true, decide_eq_true_eq]
  omega

/-- Stability of the leaderboard sort: rows of any fixed experience keep
their relative input order. -/
theorem leaderboard_sorted_filter (l : List PlayerRow) (k : Int) :
    (leaderboard_sorted l).filter (fun p => p.xp == k) =
      l.filter (fun p => p.xp == k) := by
  have hall : ∀ p ∈ l.filter (fun p => p.xp == k), p.xp = k := by
    intro p hp
    simpa using (List.mem_filter.mp hp).2
  have hpw : (l.filter (fun p => p.xp == k)).Pairwise (fun a b => lbLe a b) := by
    apply List.pairwise_of_forall_mem_list
    intro a ha b hb
    simp only [lbLe, decide_eq_true_eq, hall a ha, hall b hb]
    omega
  have hsub : List.Sublist (l.filter (fun p => p.xp == k)) (leaderboard_sorted l) :=
    List.sublist_mergeSort (fun a b c => lbLe_trans a b c) lbLe_total hpw
      (List.filter_sublist l)
  have hsub2 : List.Sublist (l.filter (fun p => p.xp == k))
      ((leaderboard_sorted l).filter (fun p => p.xp == k)) := by
    have hself : (l.filter (fun p => p.xp == k)).filter (fun p => p.xp == k) =
        l.filter (fun p => p.xp == k) := by
      apply List.filter_eq_self.mpr
      intro p hp
      simp [hall p hp]
    have hstep := List.Sublist.filter (fun p => p.xp == k) hsub
    rw [hself] at hstep
    exact hstep
  have hlen : ((leaderboard_sorted l).filter (fun p => p.xp == k)).length =
      (l.filter (fun p => p.xp == k)).length :=
    ((List.mergeSort_perm l lbLe).filter _).length_eq
  exact (hsub2.eq_of_length hlen.symm).symm

/-- C6: the leaderboard sorts descending by total experience with a stable
sort (rows of equal experience keep their input order), renders the first
10 rows, assigns medals to positions 1-3 and numeric markers from
position 4 on; on the spec's example the output order is
1500000000, 500, 100, the first value formatting with a `B` suffix. -/
theorem C6_leaderboard (l : List PlayerRow) :
    (leaderboard_rows l).Pairwise (fun a b => b.xp ≤ a.xp) ∧
    (leaderboard_rows l).length = min l.length 10 ∧
    (∀ k : Int, (leaderboard_sorted l).filter (fun p => p.xp == k) =
      l.filter (fun p => p.xp == k)) ∧
    (∀ i, i < 3 → rank_marker i = medals.getD i "") ∧
    (∀ i, 3 ≤ i → rank_marker i = "**" ++ toString (i + 1) ++ ".**") ∧
    leaderboard_rows [⟨"a", 500, 1⟩, ⟨"b", 1500000000, 2⟩, ⟨"c", 100, 3⟩] =
      [⟨"b", 1500000000, 2⟩, ⟨"a", 500, 1⟩, ⟨"c", 100, 3⟩] ∧
    format_number 1500000000 = "1.50B" := by
  refine ⟨?_, ?_, leaderboard_sorted_filter l, ?_, ?_,
    by simp [leaderboard_rows, leaderboard_sorted, List.mergeSort, List.merge, lbLe],
    by decide⟩
  · have hs : (leaderboard_sorted l).Pairwise (fun a b => lbLe a b) :=
      List.sorted_mergeSort (fun a b c => lbLe_trans a b c) lbLe_total l
    have ht : (leaderboard_rows l).Pairwise (fun a b => lbLe a b) :=
      hs.sublist (List.take_sublist 10 (leaderboard_sorted l))
    exact ht.imp (fun h => by simpa [lbLe] using h)
  · have hlen : (leaderboard_sorted l).length = l.length :=
      (List.mergeSort_perm l lbLe).length_eq
    simp [leaderboard_rows, hlen, Nat.min_comm]
  · intro i h
    simp [rank_marker, h]
  · intro i h
    simp [rank_marker, Nat.not_lt.mpr h]

/-- Concrete instantiation of the rank-marker clauses of `C6_leaderboard`. -/
theorem C6_leaderboard_witness :
    rank_marker 0 = medals.getD 0 "" ∧
    rank_marker 5 = "**" ++ toString (5 + 1) ++ ".**" :=
  ⟨(C6_leaderboard []).2.2.2.1 0 (by decide),
   (C6_leaderboard []).2.2.2.2.1 5 (by decide)⟩

/-- A row of the `linked_accounts` table.  The `id` and `linked_at`
columns play no part in the verified claims and are omitted; row order is
insertion (rowid) order. -/
structure LinkRow where
  discord_id : Nat
  rsn : String
deriving DecidableEq, Repr

/-- A row of the `drop_log` table.  `timestamp` is the SQLite
`CURRENT_TIMESTAMP` at insertion, supplied as a `Nat` clock value. -/
structure DropRow where
  discord_id : Nat
  rsn : String
  item_name : String
  timestamp : Nat
deriving DecidableEq, Repr

/-- `SELECT rsn FROM linked_accounts WHERE discord_id = ?` in rowid
order. -/
def rowsFor (db : List LinkRow) (caller : Nat) : List String :=
  (db.filter (fun r => r.discord_id == caller)).map LinkRow.rsn

/-- The reply of `/link`. -/
inductive LinkOutcome
  | notFoundPlayer (rsn : String)
  | linked (actual : String)
  | alreadyLinked (actual : String)
deriving DecidableEq, Repr

/-- `/link` (`link_account` in `bot.py`): verify via the profile fetch,
resolve the canonical name `data.get("name", rsn)`, then `INSERT`; the
`UNIQUE(discord_id, rsn)` constraint (byte-wise string comparison) raises
`IntegrityError` exactly when the caller already has a row with the same
stored name. -/
def link_account (db : List LinkRow) (caller : Nat) (fetch : Option RMProfile)
    (rsn : String) : List LinkRow × LinkOutcome :=
  match fetch with
  | none => (db, .notFoundPlayer rsn)
  | some p =>
    let actual := p.name.getD rsn
    if db.any (fun r => r.discord_id == caller && r.rsn == actual) then
      (db, .alreadyLinked actual)
    else
      (db ++ [⟨caller, actual⟩], .linked actual)

/-- ASCII lowercasing of one character. -/
def lowerChar (c : Char) : Char :=
  if 'A' ≤ c ∧ c ≤ 'Z' then Char.ofNat (c.toNat + 32) else c

/-- ASCII lowercasing: SQLite `LOWER()` exactly, and Python `str.lower()`
on the ASCII account names the bot handles. -/
def asciiLower (s : String) : String :=
  String.mk (s.data.map lowerChar)

/-- The reply of `/unlink`. -/
inductive UnlinkOutcome
  | unlinked (rsn : String)
  | notLinked (rsn : String)
deriving DecidableEq, Repr

/-- `/unlink` (`unlink_account` in `bot.py`):
`DELETE FROM linked_accounts WHERE discord_id = ? AND LOWER(rsn) = LOWER(?)`
(SQLite `LOWER` is ASCII-only, modelled by `String.toLower`); a positive
`rowcount` decides success, zero rows is the "not linked" outcome. -/
def unlink_account (db : List LinkRow) (caller : Nat) (rsn : String) :
    List LinkRow × UnlinkOutcome :=
  let keep := db.filter (fun r => !(r.discord_id == caller && asciiLower r.rsn == asciiLower rsn))
  if keep.length < db.length then (keep, .unlinked rsn)
  else (db, .notLinked rsn)

/-- C7: starting from a state in which the caller has no linked rows, a
successful `link` stores exactly the canonical profile name; an `unlink`
with any letter-case variant of that name then removes the stored row,
restoring zero linked accounts for the caller; and a further `unlink` of
the same name deletes zero rows, which is the `notLinked` outcome with the
table unchanged, not an error. -/
theorem C7_link_unlink (db : List LinkRow) (caller : Nat) (p : RMProfile)
    (typed u : String) (h0 : rowsFor db caller = [])
    (hcase : asciiLower u = asciiLower (p.name.getD typed)) :
    (link_account db caller (some p) typed).2 = .linked (p.name.getD typed) ∧
    rowsFor (link_account db caller (some p) typed).1 caller = [p.name.getD typed] ∧
    (unlink_account (link_account db caller (some p) typed).1 caller u).2 = .unlinked u ∧
    rowsFor (unlink_account (link_account db caller (some p) typed).1 caller u).1 caller
      = [] ∧
    (unlink_account (unlink_account (link_account db caller (some p) typed).1 caller u).1
        caller u).2 = .notLinked u ∧
    (unlink_account (unlink_account (link_account db caller (some p) typed).1 caller u).1
        caller u).1 =
      (unlink_account (link_account db caller (some p) typed).1 caller u).1 := by
  have hno : ∀ r ∈ db, (r.discord_id == caller) = false := by
    intro r hr
    have hfil : db.filter (fun r => r.discord_id == caller) = [] :=
      List.map_eq_nil_iff.mp h0
    by_contra hne
    have hmem : r ∈ db.filter (fun r => r.discord_id == caller) := by
      rw [List.mem_filter]
      exact ⟨hr, by simpa using hne⟩
    rw [hfil] at hmem
    simp at hmem
  have hany : db.any (fun r => r.discord_id == caller && r.rsn == p.name.getD typed)
      = false := by
    rw [List.any_eq_false]
    intro r hr
    simp [hno r hr]
  have hlink : link_account db caller (some p) typed =
      (db ++ [⟨caller, p.name.getD typed⟩], .linked (p.name.getD typed)) := by
    simp [link_account, hany]
  have hrows1 : rowsFor (db ++ [⟨caller, p.name.getD typed⟩]) caller
      = [p.name.getD typed] := by
    rw [rowsFor, List.filter_append]
    rw [show db.filter (fun r => r.discord_id == caller) = [] from List.map_eq_nil_iff.mp h0]
    simp
  have hkeep : (db ++ [(⟨caller, p.name.getD typed⟩ : LinkRow)]).filter
      (fun r => !(r.discord_id == caller && asciiLower r.rsn == asciiLower u)) = db := by
    rw [List.filter_append]
    have h1 : db.filter
        (fun r => !(r.discord_id == caller && asciiLower r.rsn == asciiLower u)) = db := by
      apply List.filter_eq_self.mpr
      intro r hr
      simp [hno r hr]
    have h2 : ([⟨caller, p.name.getD typed⟩] : List LinkRow).filter
        (fun r => !(r.discord_id == caller && asciiLower r.rsn == asciiLower u)) = [] := by
      simp [hcase]
    rw [h1, h2, List.append_nil]
  have hunlink : unlink_account (db ++ [(⟨caller, p.name.getD typed⟩ : LinkRow)]) caller u
      = (db, .unlinked u) := by
    rw [unlink_account]
    simp only [hkeep]
    rw [if_pos (by simp)]
  have hkeep2 : db.filter
      (fun r => !(r.discord_id == caller && asciiLower r.rsn == asciiLower u)) = db := by
    apply List.filter_eq_self.mpr
    intro r hr
    simp [hno r hr]
  have hunlink2 : unlink_account db caller u = (db, .notLinked u) := by
    rw [unlink_account]
    simp only [hkeep2]
    rw [if_neg (by omega)]
  rw [hlink]
  simp [hunlink, hrows1, hunlink2, h0]

/-- Concrete instantiation of `C7_link_unlink`: link `Zezima` (typed in
lowercase), unlink it in uppercase. -/
theorem C7_link_unlink_witness :
    (unlink_account
      (link_account [] 1 (some ⟨some "Zezima", none, none, none, none, none, none, []⟩)
        "zezima").1 1 "ZEZIMA").2 = .unlinked "ZEZIMA" ∧
    rowsFor (unlink_account
      (link_account [] 1 (some ⟨some "Zezima", none, none, none, none, none, none, []⟩)
        "zezima").1 1 "ZEZIMA").1 1 = [] := by
  have h := C7_link_unlink [] 1 ⟨some "Zezima", none, none, none, none, none, none, []⟩
    "zezima" "ZEZIMA" (by rfl) (by decide)
  exact ⟨h.2.2.1, h.2.2.2.1⟩

/-- C8: the `(caller, resolved canonical name)` pair occurs at most once:
from a state with no such row, the first `link` succeeds and stores exactly
one row; repeating the same `link` yields the duplicate outcome and leaves
the table unchanged, still with exactly one row; a different caller can
still link the same canonical name. -/
theorem C8_link_unique (db : List LinkRow) (c1 c2 : Nat) (p : RMProfile) (typed : String)
    (h1 : (db.filter (fun r => r.discord_id == c1 && r.rsn == p.name.getD typed)).length = 0)
    (h2 : (db.filter (fun r => r.discord_id == c2 && r.rsn == p.name.getD typed)).length = 0)
    (hne : c1 ≠ c2) :
    (link_account db c1 (some p) typed).2 = .linked (p.name.getD typed) ∧
    ((link_account db c1 (some p) typed).1.filter
      (fun r => r.discord_id == c1 && r.rsn == p.name.getD typed)).length = 1 ∧
    (link_account (link_account db c1 (some p) typed).1 c1 (some p) typed).2 =
      .alreadyLinked (p.name.getD typed) ∧
    (link_account (link_account db c1 (some p) typed).1 c1 (some p) typed).1 =
      (link_account db c1 (some p) typed).1 ∧
    (link_account (link_account db c1 (some p) typed).1 c2 (some p) typed).2 =
      .linked (p.name.getD typed) := by
  have hfil1 : db.filter (fun r => r.discord_id == c1 && r.rsn == p.name.getD typed)
      = [] := List.length_eq_zero.mp h1
  have hfil2 : db.filter (fun r => r.discord_id == c2 && r.rsn == p.name.getD typed)
      = [] := List.length_eq_zero.mp h2
  have hnot1 : ∀ r ∈ db, ¬ (r.discord_id == c1 && r.rsn == p.name.getD typed) = true := by
    intro r hr hp
    have hmem : r ∈ db.filter (fun r => r.discord_id == c1 && r.rsn == p.name.getD typed) :=
      List.mem_filter.mpr ⟨hr, hp⟩
    rw [hfil1] at hmem
    simp at hmem
  have hnot2 : ∀ r ∈ db, ¬ (r.discord_id == c2 && r.rsn == p.name.getD typed) = true := by
    intro r hr hp
    have hmem : r ∈ db.filter (fun r => r.discord_id == c2 && r.rsn == p.name.getD typed) :=
      List.mem_filter.mpr ⟨hr, hp⟩
    rw [hfil2] at hmem
    simp at hmem
  have hany1 : db.any (fun r => r.discord_id == c1 && r.rsn == p.name.getD typed)
      = false := List.any_eq_false.mpr hnot1
  have hlink : link_account db c1 (some p) typed =
      (db ++ [(⟨c1, p.name.getD typed⟩ : LinkRow)], .linked (p.name.getD typed)) := by
    simp [link_account, hany1]
  have hfilrow : (db ++ [(⟨c1, p.name.getD typed⟩ : LinkRow)]).filter
      (fun r => r.discord_id == c1 && r.rsn == p.name.getD typed)
      = [(⟨c1, p.name.getD typed⟩ : LinkRow)] := by
    rw [List.filter_append, hfil1]
    simp
  have hany1' : (db ++ [(⟨c1, p.name.getD typed⟩ : LinkRow)]).any
      (fun r => r.discord_id == c1 && r.rsn == p.name.getD typed) = true := by
    rw [List.any_eq_true]
    exact ⟨⟨c1, p.name.getD typed⟩, by simp, by simp⟩
  have hany2 : (db ++ [(⟨c1, p.name.getD typed⟩ : LinkRow)]).any
      (fun r => r.discord_id == c2 && r.rsn == p.name.getD typed) = false := by
    rw [List.any_eq_false]
    intro r hr
    rcases List.mem_append.mp hr with hdb | hrow
    · exact hnot2 r hdb
    · have hr' : r = (⟨c1, p.name.getD typed⟩ : LinkRow) := by simpa using hrow
      subst hr'
      simp [hne]
  rw [hlink]
  refine ⟨rfl, by simpa using congrArg List.length hfilrow, ?_, ?_, ?_⟩
  · simp [link_account, hany1']
  · simp [link_account, hany1']
  · simp [link_account, hany2]

/-- Concrete instantiation of `C8_link_unique`: caller 1 links `Zezima`
twice, caller 2 then links the same name. -/
theorem C8_link_unique_witness :
    (link_account
      (link_account [] 1 (some ⟨some "Zezima", none, none, none, none, none, none, []⟩)
        "zezima").1 1
      (some ⟨some "Zezima", none, none, none, none, none, none, []⟩) "zezima").2 =
      .alreadyLinked "Zezima" ∧
    (link_account
      (link_account [] 1 (some ⟨some "Zezima", none, none, none, none, none, none, []⟩)
        "zezima").1 2
      (some ⟨some "Zezima", none, none, none, none, none, none, []⟩) "zezima").2 =
      .linked "Zezima" := by
  have h := C8_link_unique [] 1 2 ⟨some "Zezima", none, none, none, none, none, none, []⟩
    "zezima" (by rfl) (by rfl) (by decide)
  exact ⟨h.2.2.1, h.2.2.2.2⟩

/-- Python falsiness of an optional string argument (`None` or `""`). -/
def strFalsy : Option String → Bool
  | none => true
  | some r => r == ""

/-- The reply of `/drop`. -/
inductive DropOutcome
  | noLinkedAccounts
  | notYourAccount (rsn : String)
  | logged (rsn item : String)
deriving DecidableEq, Repr

/-- `/drop` (`log_drop` in `bot.py`): require at least one linked account;
a truthy RSN argument must match one of the caller's linked names
case-insensitively, otherwise reject without inserting; with no RSN
argument the first linked account is used; on success exactly one row is
appended to `drop_log` at clock value `t`. -/
def log_drop (db : List LinkRow) (dl : List DropRow) (caller : Nat)
    (item : String) (rsn : Option String) (t : Nat) : List DropRow × DropOutcome :=
  match rowsFor db caller with
  | [] => (dl, .noLinkedAccounts)
  | a :: rest =>
    if strFalsy rsn then
      (dl ++ [⟨caller, a, item, t⟩], .logged a item)
    else
      let r := rsn.getD ""
      if (a :: rest).any (fun x => asciiLower x == asciiLower r) then
        (dl ++ [⟨caller, r, item, t⟩], .logged r item)
      else (dl, .notYourAccount r)

/-- Drop-log ordering `ORDER BY timestamp DESC`, a stable merge sort here;
SQLite leaves the relative order of equal timestamps unspecified and no
claim depends on it. -/
def dropLe (a b : DropRow) : Bool :=
  decide (b.timestamp ≤ a.timestamp)

/-- `/drops` (`view_drops` in `bot.py`): optional case-insensitive RSN
filter, newest first, `LIMIT 10`. -/
def view_drops (dl : List DropRow) (rsn : Option String) : List DropRow :=
  let rows := match rsn with
    | some f => dl.filter (fun r : DropRow => asciiLower r.rsn == asciiLower f)
    | none => dl
  (rows.mergeSort dropLe).take 10

/-- The persistent state: the two tables the command set writes
(`achievement_log` and `player_cache` are declared but never written). -/
structure BotState where
  linked_accounts : List LinkRow
  drop_log : List DropRow
deriving Repr

/-- One command invocation with its oracle inputs: every upstream fetch
result is part of the command value. -/
inductive Command
  | link (caller : Nat) (fetch : Option RMProfile) (rsn : String)
  | unlink (caller : Nat) (rsn : String)
  | accounts (caller : Nat)
  | stats (caller : Nat) (rsn : Option String) (rm : Option RMProfile)
      (hs : Option (List (String × SkillEntry)))
  | compare (rsn1 rsn2 : String) (d1 d2 : Option RMProfile)
  | drop (caller : Nat) (item : String) (rsn : Option String) (t : Nat)
  | drops (rsn : Option String)
  | leaderboard (fetch : String → Option RMProfile)

/-- A command's user-visible reply, carrying the structured outcome;
the emoji/embed presentation itself is out of the specified scope. -/
inductive Reply
  | message (text : String)
  | linkReply (o : LinkOutcome)
  | unlinkReply (o : UnlinkOutcome)
  | accountsReply (rsns : List String)
  | statsReply (o : StatsOutcome)
  | compareReply (fields : List ComparedField)
  | dropReply (o : DropOutcome)
  | dropsReply (rows : List DropRow)
  | leaderboardReply (rows : List PlayerRow)

/-- The whole command surface as one state-transition function. -/
def step (s : BotState) : Command → BotState × Reply
  | .link caller fetch rsn =>
    ({ s with linked_accounts := (link_account s.linked_accounts caller fetch rsn).1 },
     .linkReply (link_account s.linked_accounts caller fetch rsn).2)
  | .unlink caller rsn =>
    ({ s with linked_accounts := (unlink_account s.linked_accounts caller rsn).1 },
     .unlinkReply (unlink_account s.linked_accounts caller rsn).2)
  | .accounts caller => (s, .accountsReply (rowsFor s.linked_accounts caller))
  | .stats caller rsnArg rm hs =>
    if strFalsy rsnArg then
      match rowsFor s.linked_accounts caller with
      | [] => (s, .message "Please provide an RSN or link an account with `/link`.")
      | r :: _ => (s, .statsReply (stats_report rm hs r))
    else
      (s, .statsReply (stats_report rm hs (rsnArg.getD "")))
  | .compare rsn1 rsn2 d1 d2 =>
    match d1, d2 with
    | some p1, some p2 => (s, .compareReply (compare_report p1 p2))
    | _, _ =>
      (s, .message ("❌ Could not find player(s): " ++ String.intercalate ", "
        ((if d1.isNone then [rsn1] else []) ++ (if d2.isNone then [rsn2] else []))))
  | .drop caller item rsn t =>
    ({ s with drop_log := (log_drop s.linked_accounts s.drop_log caller item rsn t).1 },
     .dropReply (log_drop s.linked_accounts s.drop_log caller item rsn t).2)
  | .drops rsn =>
    let ds := view_drops s.drop_log rsn
    if ds.isEmpty then (s, .message "No drops logged yet!") else (s, .dropsReply ds)
  | .leaderboard fetch =>
    match (s.linked_accounts.map LinkRow.rsn).dedup with
    | [] => (s, .message "No accounts linked yet!")
    | a :: rest =>
      (s, .leaderboardReply (leaderboard_rows ((a :: rest).filterMap
        (fun r : String => (fetch r).map (fun d : RMProfile =>
          PlayerRow.mk (d.name.getD r) (d.totalxp.getD 0) (d.totalskill.getD 0))))))

theorem log_drop_extends (db : List LinkRow) (dl : List DropRow) (caller : Nat)
    (item : String) (rsn : Option String) (t : Nat) :
    ∃ tl, (log_drop db dl caller item rsn t).1 = dl ++ tl := by
  rcases h : rowsFor db caller with _ | ⟨a, rest⟩
  · exact ⟨[], by simp [log_drop, h]⟩
  · by_cases hf : strFalsy rsn = true
    · exact ⟨[⟨caller, a, item, t⟩], by simp [log_drop, h, hf]⟩
    · by_cases hm : ((a :: rest).any (fun x => asciiLower x == asciiLower (rsn.getD ""))) = true
      · exact ⟨[⟨caller, rsn.getD "", item, t⟩], by simp [log_drop, h, hf, hm]⟩
      · exact ⟨[], by simp [log_drop, h, hf, hm]⟩

theorem dropLe_trans (a b c : DropRow) : dropLe a b → dropLe b c → dropLe a c := by
  simp only [dropLe, decide_eq_true_eq]
  omega

theorem dropLe_total (a b : DropRow) : dropLe a b || dropLe b a := by
  simp only [dropLe, Bool.or_eq_true, decide_eq_true_eq]
  omega

/-- C9: every command leaves the drop log an extension of the old one
(rows are only appended, never updated or deleted by any operation);
listing drops returns `min (N, 10)` rows ordered by timestamp descending,
the optional filter matching the account name case-insensitively, and
every listed row is a recorded row. -/
theorem C9_drops (s : BotState) (cmd : Command) (dl : List DropRow)
    (f : String) (fopt : Option String) :
    (∃ tl, (step s cmd).1.drop_log = s.drop_log ++ tl) ∧
    (view_drops dl none).length = min dl.length 10 ∧
    (view_drops dl (some f)).length =
      min (dl.filter (fun r : DropRow => asciiLower r.rsn == asciiLower f)).length 10 ∧
    (view_drops dl fopt).Pairwise (fun a b => b.timestamp ≤ a.timestamp) ∧
    (∀ r ∈ view_drops dl (some f), asciiLower r.rsn = asciiLower f) ∧
    (∀ r ∈ view_drops dl fopt, r ∈ dl) := by
  refine ⟨?_, ?_, ?_, ?_, ?_, ?_⟩
  · cases cmd with
    | link caller fetch rsn => exact ⟨[], by simp [step]⟩
    | unlink caller rsn => exact ⟨[], by simp [step]⟩
    | accounts caller => exact ⟨[], by simp [step]⟩
    | stats caller rsnArg rm hs =>
      refine ⟨[], ?_⟩
      simp only [step]
      split
      · split <;> simp
      · simp
    | compare r1 r2 d1 d2 =>
      refine ⟨[], ?_⟩
      simp only [step]
      rcases d1 with _ | p1 <;> rcases d2 with _ | p2 <;> simp
    | drop caller item rsn t =>
      obtain ⟨tl, htl⟩ := log_drop_extends s.linked_accounts s.drop_log caller item rsn t
      exact ⟨tl, by simpa [step] using htl⟩
    | drops rsn =>
      refine ⟨[], ?_⟩
      simp only [step]
      split <;> simp
    | leaderboard fetch =>
      refine ⟨[], ?_⟩
      simp only [step]
      split <;> simp
  · simp [view_drops, List.length_take, (List.mergeSort_perm dl dropLe).length_eq,
      Nat.min_comm]
  · simp [view_drops, List.length_take,
      (List.mergeSort_perm (dl.filter fun r : DropRow => asciiLower r.rsn == asciiLower f)
        dropLe).length_eq, Nat.min_comm]
  · have hs : ∀ rows : List DropRow,
        (rows.mergeSort dropLe).Pairwise (fun a b => dropLe a b) :=
      fun rows => List.sorted_mergeSort (fun a b c => dropLe_trans a b c) dropLe_total rows
    cases fopt with
    | none =>
      have ht := (hs dl).sublist (List.take_sublist 10 (dl.mergeSort dropLe))
      exact ht.imp (fun h => by simpa [dropLe] using h)
    | some g =>
      have ht := (hs (dl.filter (fun r : DropRow => asciiLower r.rsn == asciiLower g))).sublist
        (List.take_sublist 10 _)
      exact ht.imp (fun h => by simpa [dropLe] using h)
  · intro r hr
    have h1 : r ∈ (dl.filter (fun r : DropRow => asciiLower r.rsn == asciiLower f)).mergeSort
        dropLe := List.take_subset 10 _ hr
    have h2 : r ∈ dl.filter (fun r : DropRow => asciiLower r.rsn == asciiLower f) :=
      ((List.mergeSort_perm _ dropLe).mem_iff).mp h1
    simpa using (List.mem_filter.mp h2).2
  · intro r hr
    cases fopt with
    | none =>
      exact ((List.mergeSort_perm dl dropLe).mem_iff).mp (List.take_subset 10 _ hr)
    | some g =>
      have h1 := List.take_subset 10 _ hr
      have h2 : r ∈ dl.filter (fun r : DropRow => asciiLower r.rsn == asciiLower g) :=
        ((List.mergeSort_perm _ dropLe).mem_iff).mp h1
      exact List.filter_subset' dl h2

/-- Concrete instantiation of `C9_drops`: the filtered listing of a
one-drop log matches case-insensitively. -/
theorem C9_drops_witness :
    (∃ tl, (step ⟨[], []⟩ (Command.drop 1 "Whip" none 5)).1.drop_log =
      ([] : List DropRow) ++ tl) ∧
    asciiLower (⟨1, "Bob", "Whip", 5⟩ : DropRow).rsn = asciiLower "BOB" := by
  have h := C9_drops ⟨[], []⟩ (Command.drop 1 "Whip" none 5) [⟨1, "Bob", "Whip", 5⟩]
    "BOB" none
  refine ⟨h.1, ?_⟩
  apply h.2.2.2.2.1
  have hv : view_drops [(⟨1, "Bob", "Whip", 5⟩ : DropRow)] (some "BOB") =
      [⟨1, "Bob", "Whip", 5⟩] := by
    simp [view_drops, (by decide : (asciiLower "Bob" == asciiLower "BOB") = true)]
  rw [hv]
  simp

/-- C10: `/drop` with no linked accounts rejects and inserts nothing; a
reject also happens, with nothing inserted, when the explicit RSN argument
matches none of the caller's linked names case-insensitively; a matching
argument records the drop, and with no argument the drop is recorded
against the caller's first linked account. -/
theorem C10_log_drop (db : List LinkRow) (dl : List DropRow) (caller : Nat)
    (item r : String) (t : Nat) :
    (rowsFor db caller = [] →
      ∀ rsn, log_drop db dl caller item rsn t = (dl, .noLinkedAccounts)) ∧
    (rowsFor db caller ≠ [] → r ≠ "" →
      (∀ a ∈ rowsFor db caller, asciiLower a ≠ asciiLower r) →
      log_drop db dl caller item (some r) t = (dl, .notYourAccount r)) ∧
    (rowsFor db caller ≠ [] → r ≠ "" →
      (∃ a ∈ rowsFor db caller, asciiLower a = asciiLower r) →
      log_drop db dl caller item (some r) t =
        (dl ++ [(⟨caller, r, item, t⟩ : DropRow)], .logged r item)) ∧
    (∀ a rest, rowsFor db caller = a :: rest →
      log_drop db dl caller item none t =
        (dl ++ [(⟨caller, a, item, t⟩ : DropRow)], .logged a item)) := by
  refine ⟨?_, ?_, ?_, ?_⟩
  · intro h rsn
    simp [log_drop, h]
  · intro hne hr hnomatch
    rcases hlist : rowsFor db caller with _ | ⟨a, rest⟩
    · exact absurd hlist hne
    · have hf : strFalsy (some r) = false := by simp [strFalsy, hr]
      have hany : ((a :: rest).any (fun x => asciiLower x == asciiLower r)) = false := by
        rw [List.any_eq_false]
        intro x hx
        have hxne := hnomatch x (hlist ▸ hx)
        simp [hxne]
      simp [log_drop, hlist, hf, hany]
  · intro hne hr hmatch
    rcases hlist : rowsFor db caller with _ | ⟨a, rest⟩
    · exact absurd hlist hne
    · have hf : strFalsy (some r) = false := by simp [strFalsy, hr]
      obtain ⟨x, hx, hxe⟩ := hmatch
      have hany : ((a :: rest).any (fun x => asciiLower x == asciiLower r)) = true := by
        rw [List.any_eq_true]
        exact ⟨x, hlist ▸ hx, by simp [hxe]⟩
      simp [log_drop, hlist, hf, hany]
  · intro a rest hlist
    simp [log_drop, hlist, strFalsy]

/-- Concrete instantiation of `C10_log_drop`: no linked account rejects;
an uppercase RSN argument matches the stored `Bob` and records the drop. -/
theorem C10_log_drop_witness :
    log_drop [] [] 1 "Whip" (some "Bob") 3 = ([], .noLinkedAccounts) ∧
    log_drop [⟨1, "Bob"⟩] [] 1 "Whip" (some "BOB") 7 =
      ([(⟨1, "BOB", "Whip", 7⟩ : DropRow)], .logged "BOB" "Whip") := by
  refine ⟨(C10_log_drop [] [] 1 "Whip" "x" 3).1 (by rfl) (some "Bob"), ?_⟩
  have h := (C10_log_drop [⟨1, "Bob"⟩] [] 1 "Whip" "BOB" 7).2.2.1
    (by decide) (by decide) ⟨"Bob", by decide, by decide⟩
  simpa using h

end ClanBot
